import Mathlib

/-!
Shallow embedding of the wallet-app transactional ledger engine
(`internal/service/wallet.go`, both revisions), its Postgres store contract
(`internal/repository/postgres/wallet.go`, transaction repository,
`db/migrations/20240611_init_schema.sql`), and the idempotency middleware.

Monetary amounts (`shopspring/decimal`, arbitrary-precision decimals) are
embedded as rationals; UUIDs as naturals; `uuid.New()` freshness for transfer
reference ids is modelled by a counter `nextRef` in the database state.
A store transaction is modelled by computing the pending state and either
committing it (the new visible state) or discarding it (the visible state is
unchanged); whether `tx.Rollback()` was actually invoked by the engine is
tracked separately in `rolledBack`, because the Go code decides that by
inspecting the function-scoped `err` variable, which several error paths
shadow.
-/

abbrev WalletID := Nat

abbrev Amount := ℚ

/-- A row of the `wallets` table (`internal/models/wallet.go`);
`created_at` is irrelevant to the claims and omitted. -/
structure Wallet where
  id : WalletID
  userId : Nat
  balance : Amount
deriving DecidableEq, Repr

/-- A row of the `transactions` table (`internal/models/transaction.go`);
the row id and `created_at` are omitted. -/
structure Transaction where
  walletId : WalletID
  type : String
  amount : Amount
  referenceId : Option Nat
  description : Option String
deriving DecidableEq, Repr

/-- Embeds `models.IsValidTransactionType` from `internal/models/transaction.go`. -/
def IsValidTransactionType (txType : String) : Bool :=
  txType == "deposit" || txType == "withdraw" ||
  txType == "transfer_in" || txType == "transfer_out"

/-- The committed database state: the `wallets` and `transactions` tables,
plus the counter standing in for the stream of fresh UUIDs used as transfer
reference ids. -/
structure DB where
  wallets : List Wallet
  transactions : List Transaction
  nextRef : Nat
deriving DecidableEq, Repr

/-- Embeds `SELECT ... FROM wallets WHERE id = $1` — the row lookup behind both
`GetWalletByID` and `GetWalletByIDWithTx` (`FOR UPDATE` affects only
locking, not the returned row). -/
def getWallet (ws : List Wallet) (id : WalletID) : Option Wallet :=
  ws.find? (fun w => w.id = id)

/-- Embeds `UPDATE wallets SET balance = $1 WHERE id = $2` — updates every row whose
id matches (the primary key makes it at most one). -/
def updateBalanceRows (ws : List Wallet) (id : WalletID) (b : Amount) : List Wallet :=
  ws.map (fun w => if w.id = id then { w with balance := b } else w)

/-- Whether the `UPDATE` touched at least one row; `UpdateBalanceWithTx`
reports "wallet not found" when `rowsAffected == 0`. -/
def balanceRowExists (ws : List Wallet) (id : WalletID) : Bool :=
  ws.any (fun w => w.id = id)

/-- The CHECK constraints of the `transactions` table in
`db/migrations/20240611_init_schema.sql`:
`type IN ('deposit','withdraw','transfer_in','transfer_out')` and
`amount > 0`.  An `INSERT` violating them errors. -/
def validTransactionRow (t : Transaction) : Bool :=
  IsValidTransactionType t.type && decide (0 < t.amount)

/-- Embeds `TransactionRepository.CreateTransactionWithTx`: append the row, or fail
when it violates the table's CHECK constraints. -/
def insertTransaction (ts : List Transaction) (t : Transaction) :
    Option (List Transaction) :=
  if validTransactionRow t then some (ts ++ [t]) else none

/-- Result of one engine call: the committed state visible afterwards, the
returned error (if any), and whether the engine invoked `tx.Rollback()`. -/
structure OpResult where
  db : DB
  err : Option String
  rolledBack : Bool
deriving DecidableEq, Repr

/-- Embeds `WalletService.validateDepositAmount` (current revision of
`internal/service/wallet.go`). -/
def validateDepositAmount (amount : Amount) : Option String :=
  if amount ≤ 0 then some "deposit amount must be positive" else none

/-- Embeds `WalletService.validateWithdrawAmount` (current revision). -/
def validateWithdrawAmount (amount currentBalance : Amount) : Option String :=
  if amount ≤ 0 then some "withdraw amount must be positive"
  else if currentBalance < amount then some "insufficient balance for withdrawal"
  else none

/-- Embeds `WalletService.validateTransferAmount` (current revision): the amount
check comes first, the same-wallet check second. -/
def validateTransferAmount (amount : Amount) (fromWalletID toWalletID : WalletID) :
    Option String :=
  if amount ≤ 0 then some "transfer amount must be positive"
  else if fromWalletID = toWalletID then some "cannot transfer to the same wallet"
  else none

/-- Embeds `WalletService.Deposit` (current revision).  Every error path after
`BeginTx` assigns the function-scoped `err`, so the deferred rollback fires
on all of them. -/
def Deposit (db : DB) (walletID : WalletID) (amount : Amount) : OpResult :=
  match validateDepositAmount amount with
  | some e => { db := db, err := some e, rolledBack := false }
  | none =>
    -- BeginTx
    match getWallet db.wallets walletID with
    | none =>
      { db := db, err := some "failed to get wallet: wallet not found",
        rolledBack := true }
    | some wallet =>
      let newBalance := wallet.balance + amount
      if balanceRowExists db.wallets walletID then
        let wallets' := updateBalanceRows db.wallets walletID newBalance
        let t : Transaction :=
          { walletId := walletID, type := "deposit", amount := amount,
            referenceId := none, description := none }
        match insertTransaction db.transactions t with
        | none =>
          { db := db, err := some "failed to record transaction: constraint violation",
            rolledBack := true }
        | some ts' =>
          -- Commit
          { db := { db with wallets := wallets', transactions := ts' },
            err := none, rolledBack := false }
      else
        { db := db, err := some "failed to update wallet balance: wallet not found",
          rolledBack := true }

/-- Embeds `WalletService.Withdraw` (current revision).  The amount/funds check runs
after the locked read, and its error path `if err := s.validateWithdrawAmount(...)`
shadows the function-scoped `err`, so the deferred rollback does not fire
there. -/
def Withdraw (db : DB) (walletID : WalletID) (amount : Amount) : OpResult :=
  -- BeginTx
  match getWallet db.wallets walletID with
  | none =>
    { db := db, err := some "failed to get wallet: wallet not found",
      rolledBack := true }
  | some wallet =>
    match validateWithdrawAmount amount wallet.balance with
    | some e => { db := db, err := some e, rolledBack := false }
    | none =>
      let newBalance := wallet.balance - amount
      if balanceRowExists db.wallets walletID then
        let wallets' := updateBalanceRows db.wallets walletID newBalance
        let t : Transaction :=
          { walletId := walletID, type := "withdraw", amount := amount,
            referenceId := none, description := none }
        match insertTransaction db.transactions t with
        | none =>
          { db := db, err := some "failed to record transaction: constraint violation",
            rolledBack := true }
        | some ts' =>
          { db := { db with wallets := wallets', transactions := ts' },
            err := none, rolledBack := false }
      else
        { db := db, err := some "failed to update wallet balance: wallet not found",
          rolledBack := true }

/-- Embeds `WalletService.Withdraw` from the first draft revision kept in
`internal/service/wallet.go`: the amount check precedes `BeginTx`, the
insufficient-balance error is returned directly (never assigning the
function-scoped `err`), and the recorded entry has type `"withdrawal"`. -/
def WithdrawRev1 (db : DB) (walletID : WalletID) (amount : Amount) : OpResult :=
  if amount ≤ 0 then
    { db := db, err := some "withdrawal amount must be positive", rolledBack := false }
  else
    match getWallet db.wallets walletID with
    | none =>
      { db := db, err := some "failed to get wallet: wallet not found",
        rolledBack := true }
    | some wallet =>
      if wallet.balance < amount then
        { db := db, err := some "insufficient balance", rolledBack := false }
      else
        let newBalance := wallet.balance - amount
        if balanceRowExists db.wallets walletID then
          let wallets' := updateBalanceRows db.wallets walletID newBalance
          let t : Transaction :=
            { walletId := walletID, type := "withdrawal", amount := amount,
              referenceId := none, description := none }
          match insertTransaction db.transactions t with
          | none =>
            { db := db,
              err := some "failed to record transaction: constraint violation",
              rolledBack := true }
          | some ts' =>
            { db := { db with wallets := wallets', transactions := ts' },
              err := none, rolledBack := false }
        else
          { db := db, err := some "failed to update wallet balance: wallet not found",
            rolledBack := true }

/-- Embeds `WalletService.transferExecution` + `lockAndGetWallets` +
`updateTransferBalances` + `createTransferRecords` (current revision),
run inside the open transaction: returns the pending tables on success. -/
def transferExecution (db : DB) (fromWalletID toWalletID : WalletID)
    (amount : Amount) (description : String) :
    Except String (List Wallet × List Transaction) :=
  -- lockAndGetWallets: source first, then destination
  match getWallet db.wallets fromWalletID with
  | none => Except.error "failed to get source wallet: wallet not found"
  | some fromWallet =>
    match getWallet db.wallets toWalletID with
    | none => Except.error "failed to get destination wallet: wallet not found"
    | some toWallet =>
      if fromWallet.balance < amount then
        Except.error "insufficient balance"
      else
        -- updateTransferBalances
        if !(balanceRowExists db.wallets fromWalletID) then
          Except.error "failed to update source wallet balance: wallet not found"
        else
          let ws1 := updateBalanceRows db.wallets fromWalletID
            (fromWallet.balance - amount)
          if !(balanceRowExists ws1 toWalletID) then
            Except.error "failed to update destination wallet balance: wallet not found"
          else
            let ws2 := updateBalanceRows ws1 toWalletID (toWallet.balance + amount)
            -- createTransferRecords: one fresh referenceID shared by both rows
            let outT : Transaction :=
              { walletId := fromWalletID, type := "transfer_out", amount := amount,
                referenceId := some db.nextRef, description := some description }
            match insertTransaction db.transactions outT with
            | none =>
              Except.error "failed to create outbound transaction: constraint violation"
            | some ts1 =>
              let inT : Transaction :=
                { walletId := toWalletID, type := "transfer_in", amount := amount,
                  referenceId := some db.nextRef, description := some description }
              match insertTransaction ts1 inT with
              | none =>
                Except.error "failed to create inbound transaction: constraint violation"
              | some ts2 => Except.ok (ws2, ts2)

/-- Embeds `WalletService.Transfer` (current revision).  Both post-`BeginTx` error
checks (`if err := s.transferExecution(...)` and `if err := tx.Commit()`)
shadow the function-scoped `err` inspected by the deferred rollback, so
`tx.Rollback()` is never invoked on those paths. -/
def Transfer (db : DB) (fromWalletID toWalletID : WalletID)
    (amount : Amount) (description : String) : OpResult :=
  match validateTransferAmount amount fromWalletID toWalletID with
  | some e => { db := db, err := some e, rolledBack := false }
  | none =>
    -- BeginTx
    match transferExecution db fromWalletID toWalletID amount description with
    | Except.error e => { db := db, err := some e, rolledBack := false }
    | Except.ok (ws', ts') =>
      -- Commit
      { db := { db with wallets := ws', transactions := ts', nextRef := db.nextRef + 1 },
        err := none, rolledBack := false }

/-! ### Store-access trace of a Transfer

The order in which `Transfer` issues its `SELECT ... FOR UPDATE` lock-reads
and `UPDATE wallets` balance writes, read off the same code path
(`Transfer` → `transferExecution` → `lockAndGetWallets` →
`updateTransferBalances` → `createTransferRecords`). -/

/-- One store access issued inside the transfer transaction. -/
inductive StoreEvent where
  | lockRead (id : WalletID)
  | writeBalance (id : WalletID)
  | insertEntry (id : WalletID)
deriving DecidableEq, Repr

/-- The sequence of store accesses a `Transfer` call issues, in program
order, including accesses on paths that subsequently fail. -/
def transferEvents (db : DB) (fromWalletID toWalletID : WalletID)
    (amount : Amount) (description : String) : List StoreEvent :=
  match validateTransferAmount amount fromWalletID toWalletID with
  | some _ => []
  | none =>
    -- lockAndGetWallets issues the source read first, unconditionally
    StoreEvent.lockRead fromWalletID ::
    match getWallet db.wallets fromWalletID with
    | none => []
    | some fromWallet =>
      StoreEvent.lockRead toWalletID ::
      match getWallet db.wallets toWalletID with
      | none => []
      | some _ =>
        if fromWallet.balance < amount then []
        else
          StoreEvent.writeBalance fromWalletID ::
          if !(balanceRowExists db.wallets fromWalletID) then []
          else
            StoreEvent.writeBalance toWalletID ::
            if !(balanceRowExists (updateBalanceRows db.wallets fromWalletID
                (fromWallet.balance - amount)) toWalletID) then []
            else
              [StoreEvent.insertEntry fromWalletID, StoreEvent.insertEntry toWalletID]

/-- The wallet ids of the lock-reads of a trace, in order. -/
def lockSeq (events : List StoreEvent) : List WalletID :=
  events.filterMap (fun e =>
    match e with
    | StoreEvent.lockRead id => some id
    | _ => none)

/-- The wallet ids of the balance writes of a trace, in order. -/
def writeSeq (events : List StoreEvent) : List WalletID :=
  events.filterMap (fun e =>
    match e with
    | StoreEvent.writeBalance id => some id
    | _ => none)

/-! ### Operation sequences and ledger invariants -/

/-- One call to the ledger engine. -/
inductive Op where
  | deposit (walletID : WalletID) (amount : Amount)
  | withdraw (walletID : WalletID) (amount : Amount)
  | transfer (fromWalletID toWalletID : WalletID) (amount : Amount)
      (description : String)
deriving Repr

/-- The committed state after one engine call (errors leave it unchanged,
since an uncommitted store transaction is invisible). -/
def applyOp (db : DB) (op : Op) : DB :=
  match op with
  | Op.deposit w a => (Deposit db w a).db
  | Op.withdraw w a => (Withdraw db w a).db
  | Op.transfer f t a d => (Transfer db f t a d).db

/-- The committed state after a sequence of engine calls. -/
def runOps (db : DB) (ops : List Op) : DB :=
  ops.foldl applyOp db

/-- The signed contribution of one ledger entry to wallet `w`:
deposits and transfer-ins add their amount, withdrawals and transfer-outs
subtract it. -/
def entryDelta (w : WalletID) (t : Transaction) : Amount :=
  if t.walletId = w then
    if t.type = "deposit" ∨ t.type = "transfer_in" then t.amount
    else if t.type = "withdraw" ∨ t.type = "transfer_out" then -t.amount
    else 0
  else 0

/-- The balance of wallet `w` reconstructed from the ledger entries alone. -/
def ledgerBalance (db : DB) (w : WalletID) : Amount :=
  (db.transactions.map (entryDelta w)).sum

/-- Every wallet's stored balance agrees with the balance reconstructed from
its ledger entries. -/
def BalancedDB (db : DB) : Prop :=
  ∀ w ∈ db.wallets, w.balance = ledgerBalance db w.id

/-- Wallet ids are unique — the `wallets.id` primary key. -/
def UniqueIds (db : DB) : Prop :=
  (db.wallets.map Wallet.id).Nodup

/-- Every wallet's stored balance is non-negative. -/
def NonNegDB (db : DB) : Prop :=
  ∀ w ∈ db.wallets, 0 ≤ w.balance

/-- Every reference id already in the ledger is below the fresh-id counter,
so the next generated reference id is genuinely fresh. -/
def RefsFresh (db : DB) : Prop :=
  ∀ t ∈ db.transactions, ∀ r, t.referenceId = some r → r < db.nextRef

/-- A database of freshly created wallets: each starts with balance zero
(`CreateWallet` inserts `decimal.Zero`) and no ledger entries. -/
def freshDB (ids : List (WalletID × Nat)) : DB :=
  { wallets := ids.map (fun p => { id := p.1, userId := p.2, balance := 0 }),
    transactions := [], nextRef := 0 }

/-! ### Idempotency middleware (`internal/middleware`, `IdempotencyMiddleware`)

Response bodies are byte lists; time is in seconds.  The SHA-256 fingerprint
over method + path + body + idempotency key is modelled by the tuple itself
(SHA-256 is treated as collision-free).  Response headers are elided: the
claims only concern status codes and bodies. -/

/-- An HTTP request as the middleware sees it. -/
structure Request where
  method : String
  path : String
  body : List Nat
  idempotencyKey : Option String
deriving DecidableEq, Repr

/-- An HTTP response: the status code the handler wrote and the body bytes. -/
structure Response where
  statusCode : Nat
  body : List Nat
deriving DecidableEq, Repr

/-- Embeds `createRequestKey`: hash of method + path + body + idempotency key,
modelled as the tuple. -/
def createRequestKey (r : Request) (idempotencyKey : String) :
    String × String × List Nat × String :=
  (r.method, r.path, r.body, idempotencyKey)

/-- A cached response (`CacheEntry`): body, status code, store time. -/
structure CacheEntry where
  response : List Nat
  statusCode : Nat
  timestamp : Nat
deriving DecidableEq, Repr

/-- The in-memory idempotency cache: an association list standing for the
Go map (`insert` overwrites the key's previous entry). -/
abbrev IdemCache := List ((String × String × List Nat × String) × CacheEntry)

/-- Lookup in the Go map. -/
def cacheFind (c : IdemCache) (k : String × String × List Nat × String) :
    Option CacheEntry :=
  (c.find? (fun p => p.1 = k)).map Prod.snd

/-- Embeds `delete(globalCache.cache, key)`. -/
def cacheErase (c : IdemCache) (k : String × String × List Nat × String) :
    IdemCache :=
  c.filter (fun p => ¬ p.1 = k)

/-- Embeds `getCachedResponse`: a hit with an entry older than 24 hours deletes the
entry and reports a miss; returns the (possibly shrunk) cache. -/
def getCachedResponse (c : IdemCache) (k : String × String × List Nat × String)
    (now : Nat) : Option CacheEntry × IdemCache :=
  match cacheFind c k with
  | none => (none, c)
  | some entry =>
    if 24 * 3600 < now - entry.timestamp then (none, cacheErase c k)
    else (some entry, c)

/-- Embeds `cleanupOldEntries`: drop entries stored more than one hour before `now`. -/
def cleanupOldEntries (c : IdemCache) (now : Nat) : IdemCache :=
  c.filter (fun p => ¬ p.2.timestamp < now - 3600)

/-- Embeds `cacheResponse`: store the entry; when the cache exceeds 10000 entries,
purge entries older than one hour. -/
def cacheResponse (c : IdemCache) (k : String × String × List Nat × String)
    (entry : CacheEntry) (now : Nat) : IdemCache :=
  let c' := (k, entry) :: cacheErase c k
  if 10000 < c'.length then cleanupOldEntries c' now else c'

/-- Result of the middleware handling one request: the response sent, the
cache afterwards, and whether the wrapped handler was invoked. -/
structure MWResult where
  resp : Response
  cache : IdemCache
  invoked : Bool
deriving DecidableEq, Repr

/-- Embeds `IdempotencyMiddleware` handling one request at time `now`, wrapping
`handler`: non-POST requests and requests without an `Idempotency-Key`
pass through uncached; a fresh cache hit is replayed verbatim without
invoking the handler; otherwise the handler runs and its response is cached
only when its status code is in the 2xx range. -/
def handleRequest (handler : Request → Response) (c : IdemCache) (now : Nat)
    (r : Request) : MWResult :=
  if r.method ≠ "POST" then
    { resp := handler r, cache := c, invoked := true }
  else
    match r.idempotencyKey with
    | none => { resp := handler r, cache := c, invoked := true }
    | some key =>
      let requestKey := createRequestKey r key
      match getCachedResponse c requestKey now with
      | (some cached, c') =>
        { resp := { statusCode := cached.statusCode, body := cached.response },
          cache := c', invoked := false }
      | (none, c') =>
        let resp := handler r
        if 200 ≤ resp.statusCode ∧ resp.statusCode < 300 then
          { resp := resp,
            cache := cacheResponse c' requestKey
              { response := resp.body, statusCode := resp.statusCode,
                timestamp := now } now,
            invoked := true }
        else
          { resp := resp, cache := c', invoked := true }

/-! ## Concrete fixtures used by witnesses and counterexamples -/

/-- Two wallets: id 1 holds 200, id 2 holds 0 (the spec's transfer scenario). -/
def demoDB : DB :=
  { wallets := [{ id := 1, userId := 10, balance := 200 },
                { id := 2, userId := 20, balance := 0 }],
    transactions := [], nextRef := 0 }

/-- Two wallets with zero balances. -/
def poorDB : DB :=
  { wallets := [{ id := 1, userId := 10, balance := 0 },
                { id := 2, userId := 20, balance := 0 }],
    transactions := [], nextRef := 0 }

/-- A database with no wallets at all. -/
def emptyDB : DB := { wallets := [], transactions := [], nextRef := 0 }

/-- Three wallets, the third a bystander of transfers between 1 and 2. -/
def frameDB : DB :=
  { wallets := [{ id := 1, userId := 10, balance := 200 },
                { id := 2, userId := 20, balance := 0 },
                { id := 3, userId := 30, balance := 7 }],
    transactions := [], nextRef := 0 }

/-- Two wallets where the larger id holds the funds, so a transfer from
id 2 to id 1 succeeds. -/
def reverseDB : DB :=
  { wallets := [{ id := 1, userId := 10, balance := 0 },
                { id := 2, userId := 20, balance := 100 }],
    transactions := [], nextRef := 0 }

/-- A request handler returning a fixed created-response. -/
def demoHandler : Request → Response :=
  fun _ => { statusCode := 201, body := [1, 2, 3] }

/-- A POST request carrying an idempotency token. -/
def demoReq : Request :=
  { method := "POST", path := "/api/v1/wallets", body := [123],
    idempotencyKey := some "abc" }

/-! ## Store lemmas -/

theorem getWallet_eq_some {ws : List Wallet} {i : WalletID} {w : Wallet}
    (h : getWallet ws i = some w) : w ∈ ws ∧ w.id = i := by
  refine ⟨List.mem_of_find?_eq_some h, ?_⟩
  have := List.find?_some h
  simpa using this

theorem getWallet_updateBalanceRows (ws : List Wallet) (i j : WalletID) (b : Amount) :
    getWallet (updateBalanceRows ws i b) j =
      (getWallet ws j).map (fun w => if w.id = i then { w with balance := b } else w) := by
  induction ws with
  | nil => rfl
  | cons w ws ih =>
    have hcons : updateBalanceRows (w :: ws) i b =
        (if w.id = i then { w with balance := b } else w) :: updateBalanceRows ws i b := rfl
    have hid : (if w.id = i then { w with balance := b } else w).id = w.id := by
      split <;> rfl
    by_cases hji : w.id = j
    · have l1 : getWallet (updateBalanceRows (w :: ws) i b) j =
          some (if w.id = i then { w with balance := b } else w) := by
        rw [hcons]
        exact List.find?_cons_of_pos _ (by simp only [hid]; simp [hji])
      have l2 : getWallet (w :: ws) j = some w :=
        List.find?_cons_of_pos _ (by simp [hji])
      rw [l1, l2]; rfl
    · have l1 : getWallet (updateBalanceRows (w :: ws) i b) j =
          getWallet (updateBalanceRows ws i b) j := by
        rw [hcons]
        exact List.find?_cons_of_neg _ (by simp only [hid]; simp [hji])
      have l2 : getWallet (w :: ws) j = getWallet ws j :=
        List.find?_cons_of_neg _ (by simp [hji])
      rw [l1, l2, ih]

theorem map_id_updateBalanceRows (ws : List Wallet) (i : WalletID) (b : Amount) :
    (updateBalanceRows ws i b).map Wallet.id = ws.map Wallet.id := by
  induction ws with
  | nil => rfl
  | cons w ws ih =>
    by_cases hwi : w.id = i <;> simp [updateBalanceRows, hwi] at ih ⊢ <;> exact ih

theorem mem_updateBalanceRows_of_ne {ws : List Wallet} {x : Wallet} {i : WalletID}
    (b : Amount) (hx : x ∈ ws) (hne : x.id ≠ i) : x ∈ updateBalanceRows ws i b := by
  have : (if x.id = i then { x with balance := b } else x) ∈ updateBalanceRows ws i b :=
    List.mem_map_of_mem _ hx
  simpa [hne] using this

theorem insertTransaction_eq_some {ts ts' : List Transaction} {t : Transaction}
    (h : insertTransaction ts t = some ts') :
    ts' = ts ++ [t] ∧ validTransactionRow t = true := by
  unfold insertTransaction at h
  split at h
  · exact ⟨(Option.some_injective _ h).symm, by assumption⟩
  · exact absurd h (by simp)

/-- The reconstructed balance over a transaction list (the `ledgerBalance`
of a state is this applied to its `transactions`). -/
theorem ledgerBalance_def (db : DB) (w : WalletID) :
    ledgerBalance db w = (db.transactions.map (entryDelta w)).sum := rfl

theorem ledger_sum_append (ts ts' : List Transaction) (w : WalletID) :
    ((ts ++ ts').map (entryDelta w)).sum =
      (ts.map (entryDelta w)).sum + (ts'.map (entryDelta w)).sum := by
  rw [List.map_append, List.sum_append]

/-! ## Success-shape characterizations of the engine operations -/

theorem Deposit_cases (db : DB) (w : WalletID) (a : Amount) :
    ((Deposit db w a).db = db ∧ (Deposit db w a).err ≠ none) ∨
    ∃ wallet, getWallet db.wallets w = some wallet ∧ 0 < a ∧
      (Deposit db w a).err = none ∧
      (Deposit db w a).db =
        { db with
          wallets := updateBalanceRows db.wallets w (wallet.balance + a),
          transactions := db.transactions ++
            [{ walletId := w, type := "deposit", amount := a,
               referenceId := none, description := none }] } := by
  unfold Deposit
  rcases ha : validateDepositAmount a with _ | e
  · rcases hg : getWallet db.wallets w with _ | wallet
    · left; exact ⟨rfl, by simp⟩
    · have hpos : 0 < a := by
        unfold validateDepositAmount at ha
        by_contra hle
        simp [not_lt] at hle
        simp [hle] at ha
      by_cases hex : balanceRowExists db.wallets w
      · rcases hins : insertTransaction db.transactions
            { walletId := w, type := "deposit", amount := a,
              referenceId := none, description := none } with _ | ts'
        · left; constructor <;> simp [hex, hins]
        · right
          obtain ⟨hts, _⟩ := insertTransaction_eq_some hins
          refine ⟨wallet, rfl, hpos, ?_, ?_⟩ <;> simp [hex, hins, hts]
      · left; constructor <;> simp [hex]
  · left; exact ⟨rfl, by simp⟩

theorem Withdraw_cases (db : DB) (w : WalletID) (a : Amount) :
    ((Withdraw db w a).db = db ∧ (Withdraw db w a).err ≠ none) ∨
    ∃ wallet, getWallet db.wallets w = some wallet ∧ 0 < a ∧ a ≤ wallet.balance ∧
      (Withdraw db w a).err = none ∧
      (Withdraw db w a).db =
        { db with
          wallets := updateBalanceRows db.wallets w (wallet.balance - a),
          transactions := db.transactions ++
            [{ walletId := w, type := "withdraw", amount := a,
               referenceId := none, description := none }] } := by
  unfold Withdraw
  rcases hg : getWallet db.wallets w with _ | wallet
  · left; exact ⟨rfl, by simp⟩
  · rcases ha : validateWithdrawAmount a wallet.balance with _ | e
    · have hpos : 0 < a ∧ a ≤ wallet.balance := by
        unfold validateWithdrawAmount at ha
        constructor
        · by_contra hle
          simp [not_lt] at hle
          simp [hle] at ha
        · by_contra hgt
          simp [not_le] at hgt
          by_cases hle : a ≤ 0 <;> simp [hle, hgt] at ha
      by_cases hex : balanceRowExists db.wallets w
      · rcases hins : insertTransaction db.transactions
            { walletId := w, type := "withdraw", amount := a,
              referenceId := none, description := none } with _ | ts'
        · left; constructor <;> simp [ha, hex, hins]
        · right
          obtain ⟨hts, _⟩ := insertTransaction_eq_some hins
          refine ⟨wallet, rfl, hpos.1, hpos.2, ?_, ?_⟩ <;> simp [ha, hex, hins, hts]
      · left; constructor <;> simp [ha, hex]
    · left; constructor <;> simp [ha]

theorem Transfer_cases (db : DB) (f t : WalletID) (a : Amount) (d : String) :
    ((Transfer db f t a d).db = db ∧ (Transfer db f t a d).err ≠ none) ∨
    ∃ fromW toW, getWallet db.wallets f = some fromW ∧
      getWallet db.wallets t = some toW ∧ 0 < a ∧ f ≠ t ∧ a ≤ fromW.balance ∧
      (Transfer db f t a d).err = none ∧
      (Transfer db f t a d).db =
        { wallets := updateBalanceRows
            (updateBalanceRows db.wallets f (fromW.balance - a)) t (toW.balance + a),
          transactions := db.transactions ++
            [{ walletId := f, type := "transfer_out", amount := a,
               referenceId := some db.nextRef, description := some d },
             { walletId := t, type := "transfer_in", amount := a,
               referenceId := some db.nextRef, description := some d }],
          nextRef := db.nextRef + 1 } := by
  unfold Transfer
  rcases hv : validateTransferAmount a f t with _ | e
  · have hvp : 0 < a ∧ f ≠ t := by
      unfold validateTransferAmount at hv
      constructor
      · by_contra hle
        simp [not_lt] at hle
        simp [hle] at hv
      · by_contra heq
        by_cases hle : a ≤ 0 <;> simp [hle, heq] at hv
    unfold transferExecution
    rcases hgf : getWallet db.wallets f with _ | fromW
    · left; exact ⟨rfl, by simp⟩
    · rcases hgt : getWallet db.wallets t with _ | toW
      · left; exact ⟨rfl, by simp⟩
      · by_cases hbal : fromW.balance < a
        · left; constructor <;> simp [hbal]
        · by_cases hexf : balanceRowExists db.wallets f
          · by_cases hext : balanceRowExists
                (updateBalanceRows db.wallets f (fromW.balance - a)) t
            · rcases hins1 : insertTransaction db.transactions
                  { walletId := f, type := "transfer_out", amount := a,
                    referenceId := some db.nextRef, description := some d } with _ | ts1
              · left; constructor <;> simp [hbal, hexf, hext, hins1]
              · rcases hins2 : insertTransaction ts1
                    { walletId := t, type := "transfer_in", amount := a,
                      referenceId := some db.nextRef, description := some d } with _ | ts2
                · left; constructor <;> simp [hbal, hexf, hext, hins1, hins2]
                · right
                  obtain ⟨hts1, _⟩ := insertTransaction_eq_some hins1
                  subst hts1
                  obtain ⟨hts2, _⟩ := insertTransaction_eq_some hins2
                  subst hts2
                  refine ⟨fromW, toW, rfl, rfl, hvp.1, hvp.2, not_lt.mp hbal, ?_, ?_⟩ <;>
                    simp [hbal, hexf, hext, hins1, hins2]
            · left; constructor <;> simp [hbal, hexf, hext]
          · left; constructor <;> simp [hbal, hexf]
  · left; exact ⟨rfl, by simp⟩

/-! ## Invariant preservation -/

theorem entryDelta_of_ne {z : WalletID} {t : Transaction} (h : t.walletId ≠ z) :
    entryDelta z t = 0 := by
  simp [entryDelta, h]

theorem nonneg_updateBalanceRows {ws : List Wallet} {i : WalletID} {b : Amount}
    (hN : ∀ w ∈ ws, 0 ≤ w.balance) (hb : 0 ≤ b) :
    ∀ w ∈ updateBalanceRows ws i b, 0 ≤ w.balance := by
  intro w hw
  obtain ⟨y, hy, hfy⟩ := List.mem_map.mp hw
  by_cases h : y.id = i
  · rw [← hfy]; simpa [h] using hb
  · rw [← hfy]; simpa [h] using hN y hy

theorem Deposit_nonneg (db : DB) (w : WalletID) (a : Amount) (hN : NonNegDB db) :
    NonNegDB (Deposit db w a).db := by
  rcases Deposit_cases db w a with ⟨h, _⟩ | ⟨wallet, hg, hpos, _, h⟩
  · rw [h]; exact hN
  · rw [h]
    intro w' hw'
    have hb : 0 ≤ wallet.balance + a :=
      add_nonneg (hN wallet (getWallet_eq_some hg).1) (le_of_lt hpos)
    exact nonneg_updateBalanceRows hN hb w' hw'

theorem Withdraw_nonneg (db : DB) (w : WalletID) (a : Amount) (hN : NonNegDB db) :
    NonNegDB (Withdraw db w a).db := by
  rcases Withdraw_cases db w a with ⟨h, _⟩ | ⟨wallet, hg, _, hle, _, h⟩
  · rw [h]; exact hN
  · rw [h]
    intro w' hw'
    exact nonneg_updateBalanceRows hN (sub_nonneg.mpr hle) w' hw'

theorem Transfer_nonneg (db : DB) (f t : WalletID) (a : Amount) (d : String)
    (hN : NonNegDB db) : NonNegDB (Transfer db f t a d).db := by
  rcases Transfer_cases db f t a d with ⟨h, _⟩ | ⟨fromW, toW, hgf, hgt, hpos, _, hle, _, h⟩
  · rw [h]; exact hN
  · rw [h]
    intro w' hw'
    have h1 : ∀ w ∈ updateBalanceRows db.wallets f (fromW.balance - a), 0 ≤ w.balance :=
      nonneg_updateBalanceRows hN (sub_nonneg.mpr hle)
    have h2 : 0 ≤ toW.balance + a :=
      add_nonneg (hN toW (getWallet_eq_some hgt).1) (le_of_lt hpos)
    exact nonneg_updateBalanceRows h1 h2 w' hw'

theorem applyOp_nonneg (db : DB) (op : Op) (hN : NonNegDB db) :
    NonNegDB (applyOp db op) := by
  cases op with
  | deposit w a => exact Deposit_nonneg db w a hN
  | withdraw w a => exact Withdraw_nonneg db w a hN
  | transfer f t a d => exact Transfer_nonneg db f t a d hN

theorem walletIds_applyOp (db : DB) (op : Op) :
    (applyOp db op).wallets.map Wallet.id = db.wallets.map Wallet.id := by
  cases op with
  | deposit w a =>
    rcases Deposit_cases db w a with ⟨h, _⟩ | ⟨wallet, _, _, _, h⟩ <;>
      rw [applyOp, h] <;> simp [map_id_updateBalanceRows]
  | withdraw w a =>
    rcases Withdraw_cases db w a with ⟨h, _⟩ | ⟨wallet, _, _, _, _, h⟩ <;>
      rw [applyOp, h] <;> simp [map_id_updateBalanceRows]
  | transfer f t a d =>
    rcases Transfer_cases db f t a d with ⟨h, _⟩ | ⟨fromW, toW, _, _, _, _, _, _, h⟩ <;>
      rw [applyOp, h] <;> simp [map_id_updateBalanceRows]

theorem balanced_one_update (db : DB) (wallet : Wallet) (w : WalletID) (nb : Amount)
    (t : Transaction) (hU : UniqueIds db) (hB : BalancedDB db)
    (hg : getWallet db.wallets w = some wallet) (htw : t.walletId = w)
    (hd : entryDelta w t = nb - wallet.balance) :
    BalancedDB { db with
                 wallets := updateBalanceRows db.wallets w nb,
                 transactions := db.transactions ++ [t] } := by
  obtain ⟨hmem, hid⟩ := getWallet_eq_some hg
  have hled : ∀ z, ledgerBalance { db with
      wallets := updateBalanceRows db.wallets w nb,
      transactions := db.transactions ++ [t] } z = ledgerBalance db z + entryDelta z t := by
    intro z
    unfold ledgerBalance
    simp
  intro w' hw'
  obtain ⟨y, hy, hfy⟩ := List.mem_map.mp hw'
  by_cases h : y.id = w
  · have hyw : y = wallet :=
      List.inj_on_of_nodup_map hU hy hmem (by rw [h, hid])
    have hw'eq : w' = { y with balance := nb } := by rw [← hfy]; simp [h]
    have hwid : w'.id = w := by rw [hw'eq]; simpa using h
    have hwb : wallet.balance = ledgerBalance db w := by
      have := hB wallet hmem
      rwa [hid] at this
    rw [hwid, hled w, hw'eq]
    show nb = ledgerBalance db w + entryDelta w t
    rw [hd, ← hwb]
    ring
  · have hw'eq : w' = y := by rw [← hfy]; simp [h]
    have hwid : w'.id = y.id := by rw [hw'eq]
    rw [hwid, hled y.id, hw'eq, entryDelta_of_ne (by rw [htw]; exact fun hc => h hc.symm)]
    simpa using hB y hy

theorem balanced_two_update (db : DB) (fromW toW : Wallet) (f t : WalletID)
    (a : Amount) (rid : Option Nat) (dd : Option String) (n : Nat)
    (hU : UniqueIds db) (hB : BalancedDB db)
    (hgf : getWallet db.wallets f = some fromW)
    (hgt : getWallet db.wallets t = some toW) (hft : f ≠ t) :
    BalancedDB
      { wallets := updateBalanceRows
                     (updateBalanceRows db.wallets f (fromW.balance - a)) t
                     (toW.balance + a),
        transactions := db.transactions ++
                          [{ walletId := f, type := "transfer_out", amount := a,
                             referenceId := rid, description := dd },
                           { walletId := t, type := "transfer_in", amount := a,
                             referenceId := rid, description := dd }],
        nextRef := n } := by
  obtain ⟨hmemf, hidf⟩ := getWallet_eq_some hgf
  obtain ⟨hmemt, hidt⟩ := getWallet_eq_some hgt
  set outT : Transaction :=
    { walletId := f, type := "transfer_out", amount := a,
      referenceId := rid, description := dd } with houtT
  set inT : Transaction :=
    { walletId := t, type := "transfer_in", amount := a,
      referenceId := rid, description := dd } with hinT
  have hled : ∀ z, ledgerBalance
      { wallets := updateBalanceRows
                     (updateBalanceRows db.wallets f (fromW.balance - a)) t
                     (toW.balance + a),
        transactions := db.transactions ++ [outT, inT], nextRef := n } z =
      ledgerBalance db z + entryDelta z outT + entryDelta z inT := by
    intro z
    unfold ledgerBalance
    simp [add_assoc]
  intro w' hw'
  obtain ⟨y2, hy2, hfy2⟩ := List.mem_map.mp hw'
  obtain ⟨y, hy, hfy⟩ := List.mem_map.mp hy2
  by_cases hf : y.id = f
  · have hyw : y = fromW := List.inj_on_of_nodup_map hU hy hmemf (by rw [hf, hidf])
    have hy2eq : y2 = { y with balance := fromW.balance - a } := by
      rw [← hfy]; simp [hf]
    have hy2t : ¬ y2.id = t := by rw [hy2eq]; simpa [hf] using hft
    have hw'eq : w' = y2 := by rw [← hfy2]; simp [hy2t]
    have hwid : w'.id = f := by rw [hw'eq, hy2eq]; simpa using hf
    have hwb : fromW.balance = ledgerBalance db f := by
      have := hB fromW hmemf
      rwa [hidf] at this
    rw [hwid, hled f, hw'eq, hy2eq]
    show fromW.balance - a = ledgerBalance db f + entryDelta f outT + entryDelta f inT
    have e1 : entryDelta f outT = -a := by simp [entryDelta, houtT]
    have e2 : entryDelta f inT = 0 :=
      entryDelta_of_ne (by simp [hinT]; exact fun hc => hft hc.symm)
    rw [e1, e2, ← hwb]
    ring
  · by_cases ht : y.id = t
    · have hyw : y = toW := List.inj_on_of_nodup_map hU hy hmemt (by rw [ht, hidt])
      have hy2eq : y2 = y := by rw [← hfy]; simp [hf]
      have hw'eq : w' = { y with balance := toW.balance + a } := by
        rw [← hfy2, hy2eq]; simp [ht]
      have hwid : w'.id = t := by rw [hw'eq]; simpa using ht
      have hwb : toW.balance = ledgerBalance db t := by
        have := hB toW hmemt
        rwa [hidt] at this
      rw [hwid, hled t, hw'eq]
      show toW.balance + a = ledgerBalance db t + entryDelta t outT + entryDelta t inT
      have e1 : entryDelta t outT = 0 :=
        entryDelta_of_ne (by simp [houtT]; exact hft)
      have e2 : entryDelta t inT = a := by simp [entryDelta, hinT]
      rw [e1, e2, ← hwb]
      ring
    · have hy2eq : y2 = y := by rw [← hfy]; simp [hf]
      have hw'eq : w' = y := by rw [← hfy2, hy2eq]; simp [ht]
      have hwid : w'.id = y.id := by rw [hw'eq]
      have e1 : entryDelta y.id outT = 0 :=
        entryDelta_of_ne (by simp [houtT]; exact fun hc => hf hc.symm)
      have e2 : entryDelta y.id inT = 0 :=
        entryDelta_of_ne (by simp [hinT]; exact fun hc => ht hc.symm)
      rw [hwid, hled y.id, hw'eq, e1, e2]
      simpa using hB y hy

theorem Deposit_balanced (db : DB) (w : WalletID) (a : Amount)
    (hU : UniqueIds db) (hB : BalancedDB db) : BalancedDB (Deposit db w a).db := by
  rcases Deposit_cases db w a with ⟨h, _⟩ | ⟨wallet, hg, hpos, _, h⟩
  · rw [h]; exact hB
  · rw [h]
    exact balanced_one_update db wallet w (wallet.balance + a) _ hU hB hg rfl
      (by simp [entryDelta])

theorem Withdraw_balanced (db : DB) (w : WalletID) (a : Amount)
    (hU : UniqueIds db) (hB : BalancedDB db) : BalancedDB (Withdraw db w a).db := by
  rcases Withdraw_cases db w a with ⟨h, _⟩ | ⟨wallet, hg, hpos, hle, _, h⟩
  · rw [h]; exact hB
  · rw [h]
    exact balanced_one_update db wallet w (wallet.balance - a) _ hU hB hg rfl
      (by simp [entryDelta])

theorem Transfer_balanced (db : DB) (f t : WalletID) (a : Amount) (d : String)
    (hU : UniqueIds db) (hB : BalancedDB db) : BalancedDB (Transfer db f t a d).db := by
  rcases Transfer_cases db f t a d with ⟨h, _⟩ | ⟨fromW, toW, hgf, hgt, hpos, hft, hle, _, h⟩
  · rw [h]; exact hB
  · rw [h]
    exact balanced_two_update db fromW toW f t a (some db.nextRef) (some d)
      (db.nextRef + 1) hU hB hgf hgt hft

theorem applyOp_balanced (db : DB) (op : Op) (hU : UniqueIds db) (hB : BalancedDB db) :
    BalancedDB (applyOp db op) := by
  cases op with
  | deposit w a => exact Deposit_balanced db w a hU hB
  | withdraw w a => exact Withdraw_balanced db w a hU hB
  | transfer f t a d => exact Transfer_balanced db f t a d hU hB

theorem applyOp_uniqueIds (db : DB) (op : Op) (hU : UniqueIds db) :
    UniqueIds (applyOp db op) := by
  unfold UniqueIds
  rw [walletIds_applyOp]
  exact hU

theorem runOps_balanced (db : DB) (ops : List Op) (hU : UniqueIds db)
    (hB : BalancedDB db) : BalancedDB (runOps db ops) := by
  induction ops generalizing db with
  | nil => exact hB
  | cons op ops ih =>
    exact ih (applyOp db op) (applyOp_uniqueIds db op hU) (applyOp_balanced db op hU hB)

theorem runOps_nonneg (db : DB) (ops : List Op) (hN : NonNegDB db) :
    NonNegDB (runOps db ops) := by
  induction ops generalizing db with
  | nil => exact hN
  | cons op ops ih => exact ih (applyOp db op) (applyOp_nonneg db op hN)

theorem freshDB_uniqueIds (ids : List (WalletID × Nat))
    (h : (ids.map Prod.fst).Nodup) : UniqueIds (freshDB ids) := by
  unfold UniqueIds freshDB
  simpa [List.map_map, Function.comp] using h

theorem freshDB_balanced (ids : List (WalletID × Nat)) : BalancedDB (freshDB ids) := by
  intro w hw
  obtain ⟨p, _, hp⟩ := List.mem_map.mp hw
  rw [← hp]
  rfl

theorem balanceRowExists_of_getWallet {ws : List Wallet} {i : WalletID} {w : Wallet}
    (h : getWallet ws i = some w) : balanceRowExists ws i = true := by
  have hmem := List.mem_of_find?_eq_some h
  have hpw := List.find?_some h
  exact List.any_eq_true.mpr ⟨w, hmem, hpw⟩

/-! ## Claims -/

/-- C1: for every wallet and every committed state reachable by any sequence
of Deposit, Withdraw, and Transfer operations starting from freshly created
wallets (balance zero, no entries), the wallet's stored balance equals the
sum of its deposit and transfer_in entry amounts minus the sum of its
withdraw and transfer_out entry amounts — the ledger is reconstructible from
its entries. -/
theorem ledger_reconstructible (ids : List (WalletID × Nat)) (ops : List Op)
    (h : (ids.map Prod.fst).Nodup) : BalancedDB (runOps (freshDB ids) ops) :=
  runOps_balanced (freshDB ids) ops (freshDB_uniqueIds ids h) (freshDB_balanced ids)

theorem ledger_reconstructible_witness :
    BalancedDB (runOps (freshDB [(1, 10), (2, 20)])
      [Op.deposit 1 100, Op.withdraw 1 25, Op.transfer 1 2 30 "rent"]) :=
  ledger_reconstructible _ _ (by decide)

/-- C2 (evaluation at the failing input): a Transfer that fails with
insufficient balance after `BeginTx` returns the error without ever invoking
`tx.Rollback()` — the `if err := s.transferExecution(...)` statement shadows
the `err` variable the deferred rollback inspects — and likewise for a
Withdraw failing its post-lock validation; no partial write is committed. -/
theorem transfer_error_skips_rollback :
    (Transfer poorDB 1 2 5 "x").err = some "insufficient balance" ∧
    (Transfer poorDB 1 2 5 "x").rolledBack = false ∧
    (Transfer poorDB 1 2 5 "x").db = poorDB ∧
    (Withdraw poorDB 1 5).err = some "insufficient balance for withdrawal" ∧
    (Withdraw poorDB 1 5).rolledBack = false ∧
    (Withdraw poorDB 1 5).db = poorDB := by
  decide

/-- C3: every engine operation preserves non-negativity of all wallet
balances: starting from a committed state where every balance is ≥ 0, every
sequence of Deposit, Withdraw, and Transfer calls ends in a committed state
where every balance is ≥ 0. -/
theorem balance_nonneg_invariant (db : DB) (ops : List Op) (hN : NonNegDB db) :
    NonNegDB (runOps db ops) :=
  runOps_nonneg db ops hN

theorem balance_nonneg_invariant_witness :
    NonNegDB (runOps demoDB [Op.withdraw 1 200, Op.transfer 1 2 1 "x"]) :=
  balance_nonneg_invariant demoDB _ (by unfold NonNegDB; decide)

/-- C7 counterexample: Withdraw on an absent wallet with amount 0 fails with
the wallet-not-found error, not a validation error — the amount check of the
current Withdraw runs only after the locked read succeeds. -/
theorem nonpositive_withdraw_not_validation_error :
    (Withdraw emptyDB 7 0).err = some "failed to get wallet: wallet not found" ∧
    (Withdraw emptyDB 7 0).err ≠ some "withdraw amount must be positive" := by
  decide

/-- C7 (amended): for every wallet id and amount ≤ 0, Deposit and Transfer
always fail with the amount-validation error and perform no write; Withdraw
also always fails and performs no write, but with the amount-validation
error only when the wallet exists, and with the wallet-not-found error when
it does not. -/
theorem nonpositive_amount_rejected (db : DB) (w f t : WalletID) (a : Amount)
    (d : String) (h : a ≤ 0) :
    (Deposit db w a).err = some "deposit amount must be positive" ∧
    (Deposit db w a).db = db ∧
    (Transfer db f t a d).err = some "transfer amount must be positive" ∧
    (Transfer db f t a d).db = db ∧
    (Withdraw db w a).db = db ∧
    (Withdraw db w a).err = some (match getWallet db.wallets w with
      | none => "failed to get wallet: wallet not found"
      | some _ => "withdraw amount must be positive") := by
  refine ⟨?_, ?_, ?_, ?_, ?_, ?_⟩
  · simp [Deposit, validateDepositAmount, h]
  · simp [Deposit, validateDepositAmount, h]
  · simp [Transfer, validateTransferAmount, h]
  · simp [Transfer, validateTransferAmount, h]
  · rcases hg : getWallet db.wallets w with _ | wallet <;>
      simp [Withdraw, hg, validateWithdrawAmount, h]
  · rcases hg : getWallet db.wallets w with _ | wallet <;>
      simp [Withdraw, hg, validateWithdrawAmount, h]

theorem nonpositive_amount_rejected_witness :
    (Deposit demoDB 1 0).err = some "deposit amount must be positive" ∧
    (Withdraw demoDB 1 0).err = some "withdraw amount must be positive" := by
  have h := nonpositive_amount_rejected demoDB 1 1 2 0 "x" (by norm_num)
  refine ⟨h.1, ?_⟩
  rw [h.2.2.2.2.2]
  rfl

/-- C8 counterexample: Transfer from a wallet to itself with amount 0 fails
with the amount-validation error, not the same-wallet error — the amount
check precedes the same-wallet check in `validateTransferAmount`. -/
theorem same_wallet_zero_amount_error :
    (Transfer demoDB 1 1 0 "x").err = some "transfer amount must be positive" ∧
    (Transfer demoDB 1 1 0 "x").err ≠ some "cannot transfer to the same wallet" := by
  decide

/-- C8 (amended): a Transfer from a wallet to itself always fails and
performs no write, regardless of the wallet's balance; the error is the
same-wallet error when the amount is positive, and the amount-validation
error when the amount is ≤ 0. -/
theorem same_wallet_transfer_rejected (db : DB) (w : WalletID) (a : Amount)
    (d : String) :
    (Transfer db w w a d).db = db ∧
    (Transfer db w w a d).rolledBack = false ∧
    (Transfer db w w a d).err =
      some (if a ≤ 0 then "transfer amount must be positive"
            else "cannot transfer to the same wallet") := by
  unfold Transfer validateTransferAmount
  by_cases h : a ≤ 0 <;> simp [h]

/-- C4: a successful Transfer appends exactly two entries — a transfer_out on
the source and a transfer_in on the destination — sharing the one freshly
generated reference id and the identical amount, and moves the source
balance down by the amount and the destination balance up by it. -/
theorem transfer_double_entry (db : DB) (f t : WalletID) (a : Amount) (d : String)
    (hok : (Transfer db f t a d).err = none) (hfresh : RefsFresh db) :
    ∃ fromW toW,
      getWallet db.wallets f = some fromW ∧
      getWallet db.wallets t = some toW ∧
      (Transfer db f t a d).db.transactions = db.transactions ++
        [{ walletId := f, type := "transfer_out", amount := a,
           referenceId := some db.nextRef, description := some d },
         { walletId := t, type := "transfer_in", amount := a,
           referenceId := some db.nextRef, description := some d }] ∧
      (∀ e ∈ db.transactions, e.referenceId ≠ some db.nextRef) ∧
      getWallet (Transfer db f t a d).db.wallets f =
        some { fromW with balance := fromW.balance - a } ∧
      getWallet (Transfer db f t a d).db.wallets t =
        some { toW with balance := toW.balance + a } := by
  rcases Transfer_cases db f t a d with ⟨_, herr⟩ |
    ⟨fromW, toW, hgf, hgt, hpos, hft, hle, _, hdb⟩
  · exact absurd hok herr
  · obtain ⟨_, hidf⟩ := getWallet_eq_some hgf
    obtain ⟨_, hidt⟩ := getWallet_eq_some hgt
    refine ⟨fromW, toW, hgf, hgt, ?_, ?_, ?_, ?_⟩
    · rw [hdb]
    · intro e he hc
      exact absurd (hfresh e he db.nextRef hc) (lt_irrefl _)
    · rw [hdb]
      show getWallet (updateBalanceRows
        (updateBalanceRows db.wallets f (fromW.balance - a)) t (toW.balance + a)) f = _
      rw [getWallet_updateBalanceRows, getWallet_updateBalanceRows, hgf]
      simp [hidf, hft]
    · rw [hdb]
      show getWallet (updateBalanceRows
        (updateBalanceRows db.wallets f (fromW.balance - a)) t (toW.balance + a)) t = _
      rw [getWallet_updateBalanceRows, getWallet_updateBalanceRows, hgt]
      simp [hidt, Ne.symm hft]

theorem transfer_double_entry_witness :
    ∃ fromW toW,
      getWallet demoDB.wallets 1 = some fromW ∧
      getWallet demoDB.wallets 2 = some toW ∧
      (Transfer demoDB 1 2 50 "rent").db.transactions = demoDB.transactions ++
        [{ walletId := 1, type := "transfer_out", amount := 50,
           referenceId := some demoDB.nextRef, description := some "rent" },
         { walletId := 2, type := "transfer_in", amount := 50,
           referenceId := some demoDB.nextRef, description := some "rent" }] ∧
      (∀ e ∈ demoDB.transactions, e.referenceId ≠ some demoDB.nextRef) ∧
      getWallet (Transfer demoDB 1 2 50 "rent").db.wallets 1 =
        some { fromW with balance := fromW.balance - 50 } ∧
      getWallet (Transfer demoDB 1 2 50 "rent").db.wallets 2 =
        some { toW with balance := toW.balance + 50 } :=
  transfer_double_entry demoDB 1 2 50 "rent" (by decide)
    (fun e he => by simp [demoDB] at he)

/-- C6 counterexample: a successful Transfer whose source id is larger than
its destination id issues its two lock-reads in descending id order — the
code locks source first, destination second, with no id-based ordering. -/
theorem transfer_lock_order_descending :
    (Transfer reverseDB 2 1 5 "x").err = none ∧
    lockSeq (transferEvents reverseDB 2 1 5 "x") = [2, 1] ∧
    ¬ List.Sorted (fun x y => x ≤ y) (lockSeq (transferEvents reverseDB 2 1 5 "x")) := by
  decide

/-- C6 (amended): for every successful Transfer the two lock-reads are
issued in a fixed deterministic order — the source wallet first, then the
destination wallet, i.e. argument order rather than ascending id — and both
wallets are lock-read before either balance is written. -/
theorem transfer_lock_then_write (db : DB) (f t : WalletID) (a : Amount)
    (d : String) (hok : (Transfer db f t a d).err = none) :
    transferEvents db f t a d =
      [StoreEvent.lockRead f, StoreEvent.lockRead t,
       StoreEvent.writeBalance f, StoreEvent.writeBalance t,
       StoreEvent.insertEntry f, StoreEvent.insertEntry t] ∧
    lockSeq (transferEvents db f t a d) = [f, t] ∧
    writeSeq (transferEvents db f t a d) = [f, t] := by
  rcases Transfer_cases db f t a d with ⟨_, herr⟩ |
    ⟨fromW, toW, hgf, hgt, hpos, hft, hle, _, _⟩
  · exact absurd hok herr
  · have hv : validateTransferAmount a f t = none := by
      simp [validateTransferAmount, not_le.mpr hpos, hft]
    have hexf : balanceRowExists db.wallets f = true :=
      balanceRowExists_of_getWallet hgf
    have hext : balanceRowExists
        (updateBalanceRows db.wallets f (fromW.balance - a)) t = true := by
      have hg2 : getWallet (updateBalanceRows db.wallets f (fromW.balance - a)) t =
          some (if toW.id = f then { toW with balance := fromW.balance - a } else toW) := by
        rw [getWallet_updateBalanceRows, hgt]; rfl
      exact balanceRowExists_of_getWallet hg2
    have hnb : ¬ fromW.balance < a := not_lt.mpr hle
    refine ⟨?_, ?_, ?_⟩ <;>
      simp [transferEvents, hv, hgf, hgt, hnb, hexf, hext, lockSeq, writeSeq]

theorem transfer_lock_then_write_witness :
    transferEvents demoDB 1 2 5 "x" =
      [StoreEvent.lockRead 1, StoreEvent.lockRead 2,
       StoreEvent.writeBalance 1, StoreEvent.writeBalance 2,
       StoreEvent.insertEntry 1, StoreEvent.insertEntry 2] ∧
    lockSeq (transferEvents demoDB 1 2 5 "x") = [1, 2] ∧
    writeSeq (transferEvents demoDB 1 2 5 "x") = [1, 2] :=
  transfer_lock_then_write demoDB 1 2 5 "x" (by decide)

/-- C9: every entry appended by a successful Withdraw of the current
revision has type exactly `withdraw`, one of the four allowed kinds; the
first-draft revision, which wrote type `withdrawal`, can never commit at
all, because that value violates the `transactions.type` CHECK constraint,
so its insert always errs. -/
theorem withdraw_entry_kind : ∀ (db : DB) (w : WalletID) (a : Amount),
    ((Withdraw db w a).err = none →
      ∃ e, (Withdraw db w a).db.transactions = db.transactions ++ [e] ∧
        e.type = "withdraw" ∧ IsValidTransactionType e.type = true) ∧
    (WithdrawRev1 db w a).err ≠ none := by
  intro db w a
  constructor
  · intro hok
    rcases Withdraw_cases db w a with ⟨_, herr⟩ | ⟨wallet, hg, _, _, _, hdb⟩
    · exact absurd hok herr
    · exact ⟨{ walletId := w, type := "withdraw", amount := a,
               referenceId := none, description := none },
             by rw [hdb], rfl, rfl⟩
  · by_cases hle : a ≤ 0
    · simp [WithdrawRev1, hle]
    · rcases hg : getWallet db.wallets w with _ | wallet
      · simp [WithdrawRev1, hle, hg]
      · by_cases hbal : wallet.balance < a
        · simp [WithdrawRev1, hle, hg, hbal]
        · by_cases hex : balanceRowExists db.wallets w
          · rcases hins : insertTransaction db.transactions
                { walletId := w, type := "withdrawal", amount := a,
                  referenceId := none, description := none } with _ | ts'
            · simp [WithdrawRev1, hle, hg, hbal, hex, hins]
            · obtain ⟨_, hvalid⟩ := insertTransaction_eq_some hins
              simp [validTransactionRow, IsValidTransactionType] at hvalid
          · simp [WithdrawRev1, hle, hg, hbal, hex]

theorem withdraw_entry_kind_witness :
    (∃ e, (Withdraw demoDB 1 5).db.transactions = demoDB.transactions ++ [e] ∧
      e.type = "withdraw" ∧ IsValidTransactionType e.type = true) ∧
    (WithdrawRev1 demoDB 1 5).err ≠ none :=
  ⟨(withdraw_entry_kind demoDB 1 5).1 (by decide), (withdraw_entry_kind demoDB 1 5).2⟩

/-- C10: every engine operation appends entries only for its participating
wallets and leaves all pre-existing entries in place (the old transaction
list is a prefix of the new one), and every wallet other than the
participants keeps its exact row — balance writes are single-row updates
keyed by wallet id. -/
theorem ledger_ops_frame (db : DB) (w f t : WalletID) (a : Amount) (d : String) :
    (∃ new, (Deposit db w a).db.transactions = db.transactions ++ new ∧
      ∀ e ∈ new, e.walletId = w) ∧
    (∀ x ∈ db.wallets, x.id ≠ w → x ∈ (Deposit db w a).db.wallets) ∧
    (∃ new, (Withdraw db w a).db.transactions = db.transactions ++ new ∧
      ∀ e ∈ new, e.walletId = w) ∧
    (∀ x ∈ db.wallets, x.id ≠ w → x ∈ (Withdraw db w a).db.wallets) ∧
    (∃ new, (Transfer db f t a d).db.transactions = db.transactions ++ new ∧
      ∀ e ∈ new, e.walletId = f ∨ e.walletId = t) ∧
    (∀ x ∈ db.wallets, x.id ≠ f → x.id ≠ t →
      x ∈ (Transfer db f t a d).db.wallets) := by
  refine ⟨?_, ?_, ?_, ?_, ?_, ?_⟩
  · rcases Deposit_cases db w a with ⟨h, _⟩ | ⟨wallet, _, _, _, h⟩
    · exact ⟨[], by simp [h], by simp⟩
    · refine ⟨_, by rw [h], ?_⟩
      intro e he
      simp at he
      rw [he]
  · rcases Deposit_cases db w a with ⟨h, _⟩ | ⟨wallet, _, _, _, h⟩
    · intro x hx _; rw [h]; exact hx
    · intro x hx hne; rw [h]; exact mem_updateBalanceRows_of_ne _ hx hne
  · rcases Withdraw_cases db w a with ⟨h, _⟩ | ⟨wallet, _, _, _, _, h⟩
    · exact ⟨[], by simp [h], by simp⟩
    · refine ⟨_, by rw [h], ?_⟩
      intro e he
      simp at he
      rw [he]
  · rcases Withdraw_cases db w a with ⟨h, _⟩ | ⟨wallet, _, _, _, _, h⟩
    · intro x hx _; rw [h]; exact hx
    · intro x hx hne; rw [h]; exact mem_updateBalanceRows_of_ne _ hx hne
  · rcases Transfer_cases db f t a d with ⟨h, _⟩ |
      ⟨fromW, toW, _, _, _, _, _, _, h⟩
    · exact ⟨[], by simp [h], by simp⟩
    · refine ⟨_, by rw [h], ?_⟩
      intro e he
      rcases (by simpa using he : _ ∨ _) with h1 | h1 <;> rw [h1]
      · exact Or.inl rfl
      · exact Or.inr rfl
  · rcases Transfer_cases db f t a d with ⟨h, _⟩ |
      ⟨fromW, toW, _, _, _, _, _, _, h⟩
    · intro x hx _ _; rw [h]; exact hx
    · intro x hx hnef hnet
      rw [h]
      exact mem_updateBalanceRows_of_ne _
        (mem_updateBalanceRows_of_ne _ hx hnef) hnet

theorem ledger_ops_frame_witness :
    ({ id := 3, userId := 30, balance := 7 } : Wallet) ∈
      (Transfer frameDB 1 2 5 "x").db.wallets :=
  (ledger_ops_frame frameDB 3 1 2 5 "x").2.2.2.2.2 _ (by decide) (by decide) (by decide)

/-! ## Idempotency middleware lemmas and claim -/

theorem cacheFind_cons_self (k : String × String × List Nat × String)
    (e : CacheEntry) (rest : IdemCache) : cacheFind ((k, e) :: rest) k = some e := by
  unfold cacheFind
  rw [List.find?_cons_of_pos _ (by simp)]
  rfl

theorem cacheFind_cacheResponse (c : IdemCache)
    (k : String × String × List Nat × String) (e : CacheEntry) (now : Nat)
    (h : ¬ e.timestamp < now - 3600) :
    cacheFind (cacheResponse c k e now) k = some e := by
  unfold cacheResponse
  show cacheFind (if 10000 < ((k, e) :: cacheErase c k).length then
      cleanupOldEntries ((k, e) :: cacheErase c k) now
    else (k, e) :: cacheErase c k) k = some e
  by_cases hlen : 10000 < ((k, e) :: cacheErase c k).length
  · rw [if_pos hlen]
    simp only [cleanupOldEntries, List.filter_cons]
    rw [if_pos (by simpa using h)]
    exact cacheFind_cons_self _ _ _
  · rw [if_neg hlen]
    exact cacheFind_cons_self _ _ _

/-- C5: for a POST request carrying an idempotency token whose fingerprint
is not yet cached, the first call executes the handler; if its status code
is 2xx, re-issuing the identical request within 24 hours replays the exact
stored status code and body without invoking the handler again and without
changing the cache; if the status code is not 2xx, nothing is cached, so a
retry re-executes the handler. -/
theorem idempotent_replay (handler : Request → Response) (c : IdemCache)
    (r : Request) (key : String) (t1 t2 : Nat)
    (hm : r.method = "POST") (hk : r.idempotencyKey = some key)
    (hmiss : cacheFind c (createRequestKey r key) = none)
    (hexp : t2 - t1 ≤ 24 * 3600) :
    (200 ≤ (handleRequest handler c t1 r).resp.statusCode ∧
        (handleRequest handler c t1 r).resp.statusCode < 300 →
      handleRequest handler (handleRequest handler c t1 r).cache t2 r =
        { resp := (handleRequest handler c t1 r).resp,
          cache := (handleRequest handler c t1 r).cache,
          invoked := false }) ∧
    ((handleRequest handler c t1 r).resp = handler r ∧
      (handleRequest handler c t1 r).invoked = true) ∧
    (¬ (200 ≤ (handleRequest handler c t1 r).resp.statusCode ∧
        (handleRequest handler c t1 r).resp.statusCode < 300) →
      (handleRequest handler c t1 r).cache = c) := by
  have h1 : handleRequest handler c t1 r =
      if 200 ≤ (handler r).statusCode ∧ (handler r).statusCode < 300 then
        { resp := handler r,
          cache := cacheResponse c (createRequestKey r key)
            { response := (handler r).body, statusCode := (handler r).statusCode,
              timestamp := t1 } t1,
          invoked := true }
      else { resp := handler r, cache := c, invoked := true } := by
    unfold handleRequest getCachedResponse
    simp [hm, hk, hmiss]
  by_cases h2 : 200 ≤ (handler r).statusCode ∧ (handler r).statusCode < 300
  · rw [h1, if_pos h2]
    refine ⟨?_, ⟨rfl, rfl⟩, ?_⟩
    · intro _
      have hfind : cacheFind (cacheResponse c (createRequestKey r key)
          { response := (handler r).body, statusCode := (handler r).statusCode,
            timestamp := t1 } t1) (createRequestKey r key) =
          some { response := (handler r).body,
                 statusCode := (handler r).statusCode, timestamp := t1 } :=
        cacheFind_cacheResponse _ _ _ _ (by dsimp only; omega)
      unfold handleRequest getCachedResponse
      simp [hm, hk, hfind, Nat.not_lt.mpr hexp]
    · intro hne
      exact absurd h2 hne
  · rw [h1, if_neg h2]
    exact ⟨fun h2' => absurd h2' h2, ⟨rfl, rfl⟩, fun _ => rfl⟩

theorem idempotent_replay_witness :
    handleRequest demoHandler (handleRequest demoHandler [] 0 demoReq).cache
        3600 demoReq =
      { resp := (handleRequest demoHandler [] 0 demoReq).resp,
        cache := (handleRequest demoHandler [] 0 demoReq).cache,
        invoked := false } :=
  (idempotent_replay demoHandler [] demoReq "abc" 0 3600 rfl rfl rfl
    (by norm_num)).1 (by decide)
